import Mathlib

/-!
Shallow embedding of the standings/progression engine of
`football_stats_analysis/StatsCalculator.py`.

The engine consumes a flat match table (one `MatchRow` per dataframe row) and
produces a final league table (`league_table`) and a per-matchday progression
(`league_progression`).  Standings dictionaries are modelled as association
lists (preserving Python dict insertion order); dataframe sorting
(`sort_values`) is modelled with `List.insertionSort` on the same comparison
key — the source uses pandas' default (unstable) sort, so the relative order of
rows with equal keys is unspecified there, and nothing below depends on it.
Match dates (`pd.to_datetime`) are modelled as natural-number timestamps.
Python integers are modelled as `Int`.
-/

/-- One row of the match dataframe, with the columns the engine reads. -/
structure MatchRow where
  league : String
  year : String
  HomeTeam : String
  AwayTeam : String
  FTHG : Int
  FTAG : Int
  Date : Nat
deriving DecidableEq, Repr

/-- Membership test `s.any(key == t)` on an association list: Python's
`team in standings`. -/
def hasTeam (s : List (String × β)) (t : String) : Bool :=
  s.any fun p => decide (p.1 = t)

/-- Dictionary lookup `standings[t]`, with a default for the absent case
(the source only reads keys it has inserted). -/
def getTeam (s : List (String × β)) (t : String) (d : β) : β :=
  match s.find? (fun p => decide (p.1 = t)) with
  | some p => p.2
  | none => d

/-- In-place update `standings[t] = f standings[t]` of an existing key. -/
def updateTeam (s : List (String × β)) (t : String) (f : β → β) :
    List (String × β) :=
  s.map fun p => if p.1 = t then (p.1, f p.2) else p

/-- Per-team aggregate of `league_table`:
`{"Points": 0, "Played": 0, "Wins": 0, "Draws": 0, "Losses": 0, "GF": 0, "GA": 0}`. -/
structure Standing where
  Points : Int
  Played : Int
  Wins : Int
  Draws : Int
  Losses : Int
  GF : Int
  GA : Int
deriving DecidableEq, Repr

/-- The zero-initialised aggregate. -/
def Standing.init : Standing := ⟨0, 0, 0, 0, 0, 0, 0⟩

/-- Initialisation `if team not in standings: standings[team] = {...zeros...}`. -/
def ensureTeam (s : List (String × Standing)) (t : String) :
    List (String × Standing) :=
  if hasTeam s t then s else s ++ [(t, Standing.init)]

/-- The body of the `for _, match in df.iterrows()` loop of `league_table`:
ensure both teams exist, update Played and goals for both, then apply the
outcome rule (home win / away win / draw). -/
def applyMatch (s : List (String × Standing)) (m : MatchRow) :
    List (String × Standing) :=
  let s := ensureTeam (ensureTeam s m.HomeTeam) m.AwayTeam
  let s := updateTeam s m.HomeTeam fun st => { st with Played := st.Played + 1 }
  let s := updateTeam s m.AwayTeam fun st => { st with Played := st.Played + 1 }
  let s := updateTeam s m.HomeTeam fun st =>
    { st with GF := st.GF + m.FTHG, GA := st.GA + m.FTAG }
  let s := updateTeam s m.AwayTeam fun st =>
    { st with GF := st.GF + m.FTAG, GA := st.GA + m.FTHG }
  if m.FTHG > m.FTAG then
    let s := updateTeam s m.HomeTeam fun st =>
      { st with Points := st.Points + 3, Wins := st.Wins + 1 }
    updateTeam s m.AwayTeam fun st => { st with Losses := st.Losses + 1 }
  else if m.FTHG < m.FTAG then
    let s := updateTeam s m.AwayTeam fun st =>
      { st with Points := st.Points + 3, Wins := st.Wins + 1 }
    updateTeam s m.HomeTeam fun st => { st with Losses := st.Losses + 1 }
  else
    let s := updateTeam s m.HomeTeam fun st =>
      { st with Points := st.Points + 1, Draws := st.Draws + 1 }
    updateTeam s m.AwayTeam fun st =>
      { st with Points := st.Points + 1, Draws := st.Draws + 1 }

/-- One row of the final table: the standing plus `Team` and the derived
`GD = GF - GA` column. -/
structure TableRow where
  Team : String
  Points : Int
  Played : Int
  Wins : Int
  Draws : Int
  Losses : Int
  GF : Int
  GA : Int
  GD : Int
deriving DecidableEq, Repr

/-- Row conversion `pd.DataFrame.from_dict` plus the `GD` column. -/
def toTableRow (p : String × Standing) : TableRow :=
  ⟨p.1, p.2.Points, p.2.Played, p.2.Wins, p.2.Draws, p.2.Losses,
   p.2.GF, p.2.GA, p.2.GF - p.2.GA⟩

/-- Key order: `a` sorts no later than `b` under
`sort_values(by=["Points", "GD", "GF"], ascending=[False, False, False])`:
the key tuple of `a` is lexicographically ≥ that of `b`. -/
def tableKeyGE (a b : TableRow) : Prop :=
  b.Points < a.Points ∨
    (a.Points = b.Points ∧ (b.GD < a.GD ∨ (a.GD = b.GD ∧ b.GF ≤ a.GF)))

instance : DecidableRel tableKeyGE := fun a b => by
  unfold tableKeyGE; infer_instance

instance : IsTotal TableRow tableKeyGE :=
  ⟨fun a b => by unfold tableKeyGE; omega⟩

instance : IsTrans TableRow tableKeyGE :=
  ⟨fun a b c hab hbc => by unfold tableKeyGE at hab hbc ⊢; omega⟩

/-- The league/season filter
`self.data[(self.data['league'] == league) & (self.data['year'] == season)]`. -/
def filterLeagueSeason (data : List MatchRow) (league season : String) :
    List MatchRow :=
  data.filter fun m => decide (m.league = league) && decide (m.year = season)

/-- First-occurrence deduplication with an accumulator of already-seen values
(structural recursion so that it evaluates in the kernel). -/
def firstDedupAux (seen : List String) : List String → List String
  | [] => []
  | x :: xs =>
    if x ∈ seen then firstDedupAux seen xs
    else x :: firstDedupAux (seen ++ [x]) xs

/-- Behaviour of `pd.unique`: distinct values in order of first occurrence. -/
def firstDedup (l : List String) : List String := firstDedupAux [] l

/-- The error payload of the `df.empty` branch:
`sorted(self.data['league'].unique())` and
`sorted(self.data['year'].unique())`. -/
def availableChoices (data : List MatchRow) : List String × List String :=
  (List.insertionSort (· ≤ ·) (firstDedup (data.map (·.league))),
   List.insertionSort (· ≤ ·) (firstDedup (data.map (·.year))))

/-- Embedding of `StatsCalculator.league_table`: filter the data to the requested league
and season, raise (here: return `.error` with the available choices) when the
filter is empty, otherwise fold the matches into standings, build the table
and sort it by Points, GD, GF descending. -/
def league_table (data : List MatchRow) (league season : String) :
    Except (List String × List String) (List TableRow) :=
  let df := filterLeagueSeason data league season
  if df.isEmpty then .error (availableChoices data)
  else .ok (List.insertionSort tableKeyGE ((df.foldl applyMatch []).map toTableRow))

/-- The error payload of an `Except`, if any. -/
def errValue : Except ε α → Option ε
  | .error e => some e
  | .ok _ => none

/-- Per-team aggregate of `league_progression`:
`{'Points': 0, 'GF': 0, 'GA': 0, 'GD': 0}`. -/
structure PStanding where
  Points : Int
  GF : Int
  GA : Int
  GD : Int
deriving DecidableEq, Repr

/-- The zero-initialised progression aggregate. -/
def PStanding.init : PStanding := ⟨0, 0, 0, 0⟩

/-- The update part of the `league_progression` loop body: points by the
outcome rule, then goals for/against with `GD` recomputed as `GF - GA`. -/
def pApply (s : List (String × PStanding)) (m : MatchRow) :
    List (String × PStanding) :=
  let s :=
    if m.FTHG > m.FTAG then
      updateTeam s m.HomeTeam fun st => { st with Points := st.Points + 3 }
    else if m.FTHG < m.FTAG then
      updateTeam s m.AwayTeam fun st => { st with Points := st.Points + 3 }
    else
      let s := updateTeam s m.HomeTeam fun st => { st with Points := st.Points + 1 }
      updateTeam s m.AwayTeam fun st => { st with Points := st.Points + 1 }
  let s := updateTeam s m.HomeTeam fun st =>
    { st with GF := st.GF + m.FTHG, GA := st.GA + m.FTAG,
              GD := st.GF + m.FTHG - (st.GA + m.FTAG) }
  updateTeam s m.AwayTeam fun st =>
    { st with GF := st.GF + m.FTAG, GA := st.GA + m.FTHG,
              GD := st.GF + m.FTAG - (st.GA + m.FTHG) }

/-- One row of the per-match ranked snapshot (standings columns, the `Team`
column assigned from the index, and the 1-based `Rank`). -/
structure PRow where
  Points : Int
  GF : Int
  GA : Int
  GD : Int
  Team : String
  Rank : Nat
deriving DecidableEq, Repr

/-- The snapshot sort key, `sort_values(by=['Points', 'GD', 'GF'],
ascending=[False, False, False])` on progression standings. -/
def pKeyGE (a b : String × PStanding) : Prop :=
  b.2.Points < a.2.Points ∨
    (a.2.Points = b.2.Points ∧
      (b.2.GD < a.2.GD ∨ (a.2.GD = b.2.GD ∧ b.2.GF ≤ a.2.GF)))

instance : DecidableRel pKeyGE := fun a b => by
  unfold pKeyGE; infer_instance

instance : IsTotal (String × PStanding) pKeyGE :=
  ⟨fun a b => by unfold pKeyGE; omega⟩

instance : IsTrans (String × PStanding) pKeyGE :=
  ⟨fun a b c hab hbc => by unfold pKeyGE at hab hbc ⊢; omega⟩

/-- Ranking `table['Rank'] = table.index + 1`: rank each row by its position,
starting from `i`. -/
def addRanks (i : Nat) : List (String × PStanding) → List PRow
  | [] => []
  | p :: rest => ⟨p.2.Points, p.2.GF, p.2.GA, p.2.GD, p.1, i⟩ :: addRanks (i + 1) rest

/-- The ranked table built from the standings dict after each match: sort by
Points, GD, GF descending, reset the index and assign `Rank = index + 1`. -/
def snapshotTable (s : List (String × PStanding)) : List PRow :=
  addRanks 1 (List.insertionSort pKeyGE s)

/-- One row appended to `progression`. -/
structure ProgEntry where
  Team : String
  Matchday : Nat
  Points : Int
  GF : Int
  GA : Int
  GD : Int
  Rank : Nat
  Date : Nat
deriving DecidableEq, Repr

/-- Body of `for team in [home, away]` for one team: count this team's
earlier progression entries, look its row up in the snapshot
(`table.loc[table['Team'] == team].iloc[0]`) and append the entry.  In the
source a missing row would raise; both participants are always keys of the
standings dict, so the `none` branch is unreachable on the engine's inputs. -/
def emitFor (table : List PRow) (prog : List ProgEntry) (t : String) (d : Nat) :
    List ProgEntry :=
  match table.find? (fun r => decide (r.Team = t)) with
  | some row =>
    prog ++ [⟨t, (prog.filter fun e => decide (e.Team = t)).length + 1,
             row.Points, row.GF, row.GA, row.GD, row.Rank, d⟩]
  | none => prog

/-- The body of the `for _, match in df.iterrows()` loop of
`league_progression`: apply the match to the standings, build the ranked
snapshot, and emit one entry for the home team and one for the away team. -/
def progStep (st : List (String × PStanding) × List ProgEntry) (m : MatchRow) :
    List (String × PStanding) × List ProgEntry :=
  let s := pApply st.1 m
  let table := snapshotTable s
  let prog := emitFor table st.2 m.HomeTeam m.Date
  (s, emitFor table prog m.AwayTeam m.Date)

/-- The key of `df.sort_values('Date')`. -/
def dateLE (a b : MatchRow) : Prop := a.Date ≤ b.Date

instance : DecidableRel dateLE := fun a b => by
  unfold dateLE; infer_instance

instance : IsTotal MatchRow dateLE := ⟨fun a b => by unfold dateLE; omega⟩

instance : IsTrans MatchRow dateLE :=
  ⟨fun a b c hab hbc => by unfold dateLE at hab hbc ⊢; omega⟩

/-- Initial dict `standings = {team: {...zeros...} for team in teams}`. -/
def initStandings (teams : List String) : List (String × PStanding) :=
  teams.map fun t => (t, PStanding.init)

/-- Team list `teams = pd.unique(df[['HomeTeam', 'AwayTeam']].values.ravel())`:
home and away of each row in row order, deduplicated by first occurrence. -/
def allTeams (df : List MatchRow) : List String :=
  firstDedup ((df.map fun m => [m.HomeTeam, m.AwayTeam]).flatten)

/-- Embedding of `StatsCalculator.league_progression`: filter to the requested league and
season (error with the available choices if empty), sort the matches by date,
zero-initialise standings for every team of the filtered data, then replay the
matches, emitting two progression entries per match. -/
def league_progression (data : List MatchRow) (league season : String) :
    Except (List String × List String) (List ProgEntry) :=
  let df := filterLeagueSeason data league season
  if df.isEmpty then .error (availableChoices data)
  else
    let df := List.insertionSort dateLE df
    (Except.ok (df.foldl progStep (initStandings (allTeams df), [])).2 :
      Except (List String × List String) (List ProgEntry))

/-- The sort key of `snapshotTable`, read off the emitted rows. -/
def prowKeyGE (a b : PRow) : Prop :=
  b.Points < a.Points ∨
    (a.Points = b.Points ∧ (b.GD < a.GD ∨ (a.GD = b.GD ∧ b.GF ≤ a.GF)))

instance : DecidableRel prowKeyGE := fun a b => by
  unfold prowKeyGE; infer_instance

/-- The progression rows returned by `league_progression` (empty on error). -/
def progOut (data : List MatchRow) (league season : String) : List ProgEntry :=
  ((league_progression data league season).toOption).getD []

/-- The table rows returned by `league_table` (empty on error). -/
def tableOut (data : List MatchRow) (league season : String) : List TableRow :=
  ((league_table data league season).toOption).getD []

/-- A two-match dataset: A beats B on day 1, then A draws C on day 2, so
three teams are known while each match involves only two of them. -/
def exDataABC : List MatchRow :=
  [⟨"epl", "2021", "A", "B", 1, 0, 1⟩, ⟨"epl", "2021", "A", "C", 0, 0, 2⟩]

/-- A dataset whose single match has a negative home-goals value and an
empty home-team identifier. -/
def exDataInvalid : List MatchRow := [⟨"l", "s", "", "B", -1, 2, 5⟩]

/-- The progression entries of one team, in emission order
(`[p for p in progression if p['Team'] == team]`). -/
def teamEntries (prog : List ProgEntry) (t : String) : List ProgEntry :=
  prog.filter fun e => decide (e.Team = t)

/-- Invariant: each team's `Matchday` column reads `1, 2, …, k` in emission
order. -/
def mdInv (prog : List ProgEntry) : Prop :=
  ∀ t, (teamEntries prog t).map (fun e => e.Matchday) =
    List.range' 1 (teamEntries prog t).length

/-- Invariant: each team's emitted `Points` column, extended with the team's
current accumulated points, is a non-decreasing chain. -/
def ptsInv (st : List (String × PStanding)) (prog : List ProgEntry) : Prop :=
  ∀ t, List.Chain' (· ≤ ·)
    (((teamEntries prog t).map (fun e => e.Points)) ++
      [(getTeam st t PStanding.init).Points])

/-! ## Association-list laws -/

theorem getTeam_cons (q : String × β) (l : List (String × β)) (t : String)
    (d : β) : getTeam (q :: l) t d = if q.1 = t then q.2 else getTeam l t d := by
  unfold getTeam
  rw [List.find?_cons]
  by_cases h : q.1 = t <;> simp [h]

theorem hasTeam_cons (q : String × β) (l : List (String × β)) (t : String) :
    hasTeam (q :: l) t = (decide (q.1 = t) || hasTeam l t) := by
  simp [hasTeam]

theorem updateTeam_cons (q : String × β) (l : List (String × β)) (t : String)
    (f : β → β) :
    updateTeam (q :: l) t f =
      (if q.1 = t then (q.1, f q.2) else q) :: updateTeam l t f := rfl

theorem hasTeam_updateTeam (s : List (String × β)) (t t' : String)
    (f : β → β) : hasTeam (updateTeam s t f) t' = hasTeam s t' := by
  unfold hasTeam updateTeam
  rw [List.any_map]
  congr 1
  funext p
  by_cases h : p.1 = t <;> simp [h]

theorem getTeam_updateTeam (s : List (String × β)) (t t' : String)
    (f : β → β) (d : β) :
    getTeam (updateTeam s t f) t' d =
      if t' = t ∧ hasTeam s t = true then f (getTeam s t d)
      else getTeam s t' d := by
  induction s with
  | nil => simp [getTeam, updateTeam, hasTeam]
  | cons p rest ih =>
    rw [updateTeam_cons]
    by_cases h1 : p.1 = t'
    · by_cases h2 : p.1 = t
      · have ht : t' = t := h1 ▸ h2
        simp [getTeam_cons, hasTeam_cons, h1, h2, ht]
      · have ht : ¬t' = t := fun h => h2 (h1.trans h)
        simp [getTeam_cons, hasTeam_cons, h1, h2, ht]
    · by_cases h2 : p.1 = t
      · have ht : ¬t' = t := fun h => h1 (h2.trans h.symm)
        have ht2 : ¬t = t' := fun h => ht h.symm
        simp [getTeam_cons, hasTeam_cons, h1, h2, ht, ht2, ih]
      · simp [getTeam_cons, hasTeam_cons, h1, h2, ih]

theorem getTeam_of_hasTeam_false (s : List (String × β)) (t : String) (d : β)
    (h : hasTeam s t = false) : getTeam s t d = d := by
  induction s with
  | nil => rfl
  | cons p rest ih =>
    rw [hasTeam_cons] at h
    rw [getTeam_cons]
    rcases Bool.or_eq_false_iff.mp h with ⟨h1, h2⟩
    simp only [decide_eq_false_iff_not] at h1
    simp [h1, ih h2]

theorem keys_updateTeam (s : List (String × β)) (t : String) (f : β → β) :
    (updateTeam s t f).map (fun p => p.1) = s.map (fun p => p.1) := by
  unfold updateTeam
  rw [List.map_map]
  congr 1
  funext p
  by_cases h : p.1 = t <;> simp [h]

theorem hasTeam_iff_mem_keys (s : List (String × β)) (t : String) :
    hasTeam s t = true ↔ t ∈ s.map (fun p => p.1) := by
  unfold hasTeam
  simp [List.any_eq_true]

theorem getTeam_eq_of_mem (s : List (String × β)) (t : String) (v : β) (d : β)
    (hnd : (s.map (fun p => p.1)).Nodup) (hm : (t, v) ∈ s) :
    getTeam s t d = v := by
  induction s with
  | nil => cases hm
  | cons p rest ih =>
    rw [List.map_cons, List.nodup_cons] at hnd
    rw [getTeam_cons]
    rcases List.mem_cons.mp hm with he | hr
    · simp [← he]
    · have h1 : p.1 ≠ t := by
        intro h
        exact hnd.1 (h ▸ (List.mem_map.mpr ⟨(t, v), hr, rfl⟩))
      simp [h1, ih hnd.2 hr]

theorem mem_of_hasTeam (s : List (String × β)) (t : String) (d : β)
    (h : hasTeam s t = true) : (t, getTeam s t d) ∈ s := by
  induction s with
  | nil => simp [hasTeam] at h
  | cons p rest ih =>
    rw [getTeam_cons]
    by_cases h1 : p.1 = t
    · rw [if_pos h1]
      have hp : (t, p.2) = p := by rw [← h1]
      rw [hp]
      exact List.mem_cons_self _ _
    · rw [if_neg h1]
      rw [hasTeam_cons] at h
      rcases (Bool.or_eq_true _ _).mp h with hh | hh
      · exact absurd (of_decide_eq_true hh) h1
      · exact List.mem_cons_of_mem _ (ih hh)

/-! ## First-occurrence dedup laws -/

theorem mem_firstDedupAux (l : List String) (seen : List String) (x : String) :
    x ∈ firstDedupAux seen l ↔ x ∈ l ∧ x ∉ seen := by
  induction l generalizing seen with
  | nil => simp [firstDedupAux]
  | cons y ys ih =>
    unfold firstDedupAux
    by_cases h : y ∈ seen
    · rw [if_pos h, ih]
      constructor
      · rintro ⟨hx, hs⟩
        exact ⟨List.mem_cons_of_mem _ hx, hs⟩
      · rintro ⟨hx, hs⟩
        rcases List.mem_cons.mp hx with he | hm
        · exact absurd (he ▸ h) hs
        · exact ⟨hm, hs⟩
    · rw [if_neg h]
      constructor
      · intro hx
        rcases List.mem_cons.mp hx with he | hm
        · exact ⟨he ▸ List.mem_cons_self y ys, he ▸ h⟩
        · rcases (ih _).mp hm with ⟨h1, h2⟩
          refine ⟨List.mem_cons_of_mem _ h1, fun hs => h2 ?_⟩
          exact List.mem_append_left _ hs
      · rintro ⟨hx, hs⟩
        rcases List.mem_cons.mp hx with he | hm
        · exact he ▸ List.mem_cons_self _ _
        · by_cases hxy : x = y
          · exact hxy ▸ List.mem_cons_self _ _
          · refine List.mem_cons_of_mem _ ((ih _).mpr ⟨hm, fun hh => ?_⟩)
            rcases List.mem_append.mp hh with h1 | h1
            · exact hs h1
            · exact hxy (List.mem_singleton.mp h1)

theorem nodup_firstDedupAux (l : List String) (seen : List String) :
    (firstDedupAux seen l).Nodup := by
  induction l generalizing seen with
  | nil => simp [firstDedupAux]
  | cons y ys ih =>
    unfold firstDedupAux
    by_cases h : y ∈ seen
    · rw [if_pos h]; exact ih seen
    · rw [if_neg h]
      refine List.nodup_cons.mpr ⟨fun hmem => ?_, ih _⟩
      rcases (mem_firstDedupAux ys (seen ++ [y]) y).mp hmem with ⟨-, hns⟩
      exact hns (List.mem_append_right _ (List.mem_singleton.mpr rfl))

theorem mem_firstDedup (l : List String) (x : String) :
    x ∈ firstDedup l ↔ x ∈ l := by
  unfold firstDedup
  rw [mem_firstDedupAux]
  simp

theorem nodup_firstDedup (l : List String) : (firstDedup l).Nodup :=
  nodup_firstDedupAux l []

/-! ## `ensureTeam` laws -/

theorem hasTeam_ensureTeam (s : List (String × Standing)) (t t' : String) :
    hasTeam (ensureTeam s t) t' = (hasTeam s t' || decide (t' = t)) := by
  unfold ensureTeam
  by_cases h : hasTeam s t
  · rw [if_pos h]
    by_cases h2 : t' = t
    · simp [h2, h]
    · simp [h2]
  · rw [if_neg h]
    unfold hasTeam
    rw [List.any_append]
    have : (decide (t = t')) = decide (t' = t) := decide_eq_decide.mpr eq_comm
    simp [this]

theorem getTeam_ensureTeam (s : List (String × Standing)) (t t' : String) :
    getTeam (ensureTeam s t) t' Standing.init = getTeam s t' Standing.init := by
  unfold ensureTeam
  by_cases h : hasTeam s t
  · rw [if_pos h]
  · rw [if_neg h]
    unfold getTeam
    rw [List.find?_append]
    cases hf : List.find? (fun p => decide (p.1 = t')) s with
    | some p => simp
    | none => by_cases h2 : t = t' <;> simp [List.find?_cons, h2]

theorem keys_ensureTeam_nodup (s : List (String × Standing)) (t : String)
    (h : (s.map (fun p => p.1)).Nodup) :
    ((ensureTeam s t).map (fun p => p.1)).Nodup := by
  unfold ensureTeam
  by_cases hh : hasTeam s t
  · rw [if_pos hh]; exact h
  · rw [if_neg hh]
    rw [List.map_append]
    refine List.Nodup.append h (List.nodup_singleton t) ?_
    intro x hx hxt
    rw [List.mem_singleton.mp hxt] at hx
    exact hh ((hasTeam_iff_mem_keys s t).mpr hx)

/-! ## Per-match characterisation of the `league_table` accumulator -/

theorem keys_applyMatch_nodup (s : List (String × Standing)) (m : MatchRow)
    (h : (s.map (fun p => p.1)).Nodup) :
    ((applyMatch s m).map (fun p => p.1)).Nodup := by
  unfold applyMatch
  split_ifs <;>
    simp only [keys_updateTeam] <;>
    exact keys_ensureTeam_nodup _ _ (keys_ensureTeam_nodup _ _ h)

theorem applyMatch_home (s : List (String × Standing)) (m : MatchRow)
    (hne : m.HomeTeam ≠ m.AwayTeam) :
    getTeam (applyMatch s m) m.HomeTeam Standing.init =
      { Points := (getTeam s m.HomeTeam Standing.init).Points +
          (if m.FTAG < m.FTHG then 3 else if m.FTHG < m.FTAG then 0 else 1),
        Played := (getTeam s m.HomeTeam Standing.init).Played + 1,
        Wins := (getTeam s m.HomeTeam Standing.init).Wins +
          (if m.FTAG < m.FTHG then 1 else 0),
        Draws := (getTeam s m.HomeTeam Standing.init).Draws +
          (if m.FTHG = m.FTAG then 1 else 0),
        Losses := (getTeam s m.HomeTeam Standing.init).Losses +
          (if m.FTHG < m.FTAG then 1 else 0),
        GF := (getTeam s m.HomeTeam Standing.init).GF + m.FTHG,
        GA := (getTeam s m.HomeTeam Standing.init).GA + m.FTAG } := by
  have hne' : m.AwayTeam ≠ m.HomeTeam := hne.symm
  rcases lt_trichotomy m.FTHG m.FTAG with hc | hc | hc <;>
    [ (have h1 : ¬m.FTAG < m.FTHG := by omega
       have h2 : ¬m.FTHG = m.FTAG := by omega
       simp [applyMatch, getTeam_updateTeam, hasTeam_updateTeam,
         hasTeam_ensureTeam, getTeam_ensureTeam, hne, hne', hc, h1, h2]);
      (have h1 : ¬m.FTAG < m.FTHG := by omega
       have h2 : ¬m.FTHG < m.FTAG := by omega
       simp [applyMatch, getTeam_updateTeam, hasTeam_updateTeam,
         hasTeam_ensureTeam, getTeam_ensureTeam, hne, hne', hc, h1, h2]);
      (have h1 : ¬m.FTHG = m.FTAG := by omega
       have h2 : ¬m.FTHG < m.FTAG := by omega
       simp [applyMatch, getTeam_updateTeam, hasTeam_updateTeam,
         hasTeam_ensureTeam, getTeam_ensureTeam, hne, hne', hc, h1, h2])]

theorem applyMatch_away (s : List (String × Standing)) (m : MatchRow)
    (hne : m.HomeTeam ≠ m.AwayTeam) :
    getTeam (applyMatch s m) m.AwayTeam Standing.init =
      { Points := (getTeam s m.AwayTeam Standing.init).Points +
          (if m.FTHG < m.FTAG then 3 else if m.FTAG < m.FTHG then 0 else 1),
        Played := (getTeam s m.AwayTeam Standing.init).Played + 1,
        Wins := (getTeam s m.AwayTeam Standing.init).Wins +
          (if m.FTHG < m.FTAG then 1 else 0),
        Draws := (getTeam s m.AwayTeam Standing.init).Draws +
          (if m.FTHG = m.FTAG then 1 else 0),
        Losses := (getTeam s m.AwayTeam Standing.init).Losses +
          (if m.FTAG < m.FTHG then 1 else 0),
        GF := (getTeam s m.AwayTeam Standing.init).GF + m.FTAG,
        GA := (getTeam s m.AwayTeam Standing.init).GA + m.FTHG } := by
  have hne' : m.AwayTeam ≠ m.HomeTeam := hne.symm
  rcases lt_trichotomy m.FTHG m.FTAG with hc | hc | hc <;>
    [ (have h1 : ¬m.FTAG < m.FTHG := by omega
       have h2 : ¬m.FTHG = m.FTAG := by omega
       simp [applyMatch, getTeam_updateTeam, hasTeam_updateTeam,
         hasTeam_ensureTeam, getTeam_ensureTeam, hne, hne', hc, h1, h2]);
      (have h1 : ¬m.FTAG < m.FTHG := by omega
       have h2 : ¬m.FTHG < m.FTAG := by omega
       simp [applyMatch, getTeam_updateTeam, hasTeam_updateTeam,
         hasTeam_ensureTeam, getTeam_ensureTeam, hne, hne', hc, h1, h2]);
      (have h1 : ¬m.FTHG = m.FTAG := by omega
       have h2 : ¬m.FTHG < m.FTAG := by omega
       simp [applyMatch, getTeam_updateTeam, hasTeam_updateTeam,
         hasTeam_ensureTeam, getTeam_ensureTeam, hne, hne', hc, h1, h2])]

theorem applyMatch_other (s : List (String × Standing)) (m : MatchRow)
    (t : String) (h1 : t ≠ m.HomeTeam) (h2 : t ≠ m.AwayTeam) :
    getTeam (applyMatch s m) t Standing.init = getTeam s t Standing.init := by
  rcases lt_trichotomy m.FTHG m.FTAG with hc | hc | hc <;>
    [ (have hx1 : ¬m.FTAG < m.FTHG := by omega
       simp [applyMatch, getTeam_updateTeam, hasTeam_updateTeam,
         hasTeam_ensureTeam, getTeam_ensureTeam, h1, h2, hc, hx1]);
      (have hx1 : ¬m.FTAG < m.FTHG := by omega
       have hx2 : ¬m.FTHG < m.FTAG := by omega
       simp [applyMatch, getTeam_updateTeam, hasTeam_updateTeam,
         hasTeam_ensureTeam, getTeam_ensureTeam, h1, h2, hc, hx1, hx2]);
      (have hx2 : ¬m.FTHG < m.FTAG := by omega
       simp [applyMatch, getTeam_updateTeam, hasTeam_updateTeam,
         hasTeam_ensureTeam, getTeam_ensureTeam, h1, h2, hc, hx2])]

theorem applyMatch_self (s : List (String × Standing)) (m : MatchRow)
    (hsame : m.HomeTeam = m.AwayTeam) :
    getTeam (applyMatch s m) m.AwayTeam Standing.init =
      { Points := (getTeam s m.AwayTeam Standing.init).Points +
          (if m.FTHG = m.FTAG then 2 else 3),
        Played := (getTeam s m.AwayTeam Standing.init).Played + 2,
        Wins := (getTeam s m.AwayTeam Standing.init).Wins +
          (if m.FTHG = m.FTAG then 0 else 1),
        Draws := (getTeam s m.AwayTeam Standing.init).Draws +
          (if m.FTHG = m.FTAG then 2 else 0),
        Losses := (getTeam s m.AwayTeam Standing.init).Losses +
          (if m.FTHG = m.FTAG then 0 else 1),
        GF := (getTeam s m.AwayTeam Standing.init).GF + m.FTHG + m.FTAG,
        GA := (getTeam s m.AwayTeam Standing.init).GA + m.FTAG + m.FTHG } := by
  rcases lt_trichotomy m.FTHG m.FTAG with hc | hc | hc <;>
    [ (have h1 : ¬m.FTAG < m.FTHG := by omega
       have h2 : ¬m.FTHG = m.FTAG := by omega
       simp [applyMatch, hsame, getTeam_updateTeam, hasTeam_updateTeam,
         hasTeam_ensureTeam, getTeam_ensureTeam, hc, h1, h2]);
      (have h1 : ¬m.FTAG < m.FTHG := by omega
       have h2 : ¬m.FTHG < m.FTAG := by omega
       simp [applyMatch, hsame, getTeam_updateTeam, hasTeam_updateTeam,
         hasTeam_ensureTeam, getTeam_ensureTeam, hc, h1, h2]);
      (have h1 : ¬m.FTHG = m.FTAG := by omega
       have h2 : ¬m.FTHG < m.FTAG := by omega
       simp [applyMatch, hsame, getTeam_updateTeam, hasTeam_updateTeam,
         hasTeam_ensureTeam, getTeam_ensureTeam, hc, h1, h2])] <;>
    all_goals omega

/-! ## Per-match characterisation of the `league_progression` accumulator -/

theorem keys_pApply (ps : List (String × PStanding)) (m : MatchRow) :
    (pApply ps m).map (fun p => p.1) = ps.map (fun p => p.1) := by
  rcases lt_trichotomy m.FTHG m.FTAG with hc | hc | hc <;>
    [ (have h1 : ¬m.FTAG < m.FTHG := by omega
       simp [pApply, keys_updateTeam, hc, h1]);
      (have h1 : ¬m.FTAG < m.FTHG := by omega
       have h2 : ¬m.FTHG < m.FTAG := by omega
       simp [pApply, keys_updateTeam, hc, h1, h2]);
      (have h2 : ¬m.FTHG < m.FTAG := by omega
       simp [pApply, keys_updateTeam, hc, h2])]

theorem hasTeam_pApply (ps : List (String × PStanding)) (m : MatchRow)
    (t : String) : hasTeam (pApply ps m) t = hasTeam ps t := by
  rcases lt_trichotomy m.FTHG m.FTAG with hc | hc | hc <;>
    [ (have h1 : ¬m.FTAG < m.FTHG := by omega
       simp [pApply, hasTeam_updateTeam, hc, h1]);
      (have h1 : ¬m.FTAG < m.FTHG := by omega
       have h2 : ¬m.FTHG < m.FTAG := by omega
       simp [pApply, hasTeam_updateTeam, hc, h1, h2]);
      (have h2 : ¬m.FTHG < m.FTAG := by omega
       simp [pApply, hasTeam_updateTeam, hc, h2])]

theorem pApply_home (ps : List (String × PStanding)) (m : MatchRow)
    (hne : m.HomeTeam ≠ m.AwayTeam) (hk : hasTeam ps m.HomeTeam = true) :
    getTeam (pApply ps m) m.HomeTeam PStanding.init =
      { Points := (getTeam ps m.HomeTeam PStanding.init).Points +
          (if m.FTAG < m.FTHG then 3 else if m.FTHG < m.FTAG then 0 else 1),
        GF := (getTeam ps m.HomeTeam PStanding.init).GF + m.FTHG,
        GA := (getTeam ps m.HomeTeam PStanding.init).GA + m.FTAG,
        GD := (getTeam ps m.HomeTeam PStanding.init).GF + m.FTHG -
          ((getTeam ps m.HomeTeam PStanding.init).GA + m.FTAG) } := by
  have hne' : m.AwayTeam ≠ m.HomeTeam := hne.symm
  rcases lt_trichotomy m.FTHG m.FTAG with hc | hc | hc <;>
    [ (have h1 : ¬m.FTAG < m.FTHG := by omega
       simp [pApply, getTeam_updateTeam, hasTeam_updateTeam, hne, hne', hk,
         hc, h1]);
      (have h1 : ¬m.FTAG < m.FTHG := by omega
       have h2 : ¬m.FTHG < m.FTAG := by omega
       simp [pApply, getTeam_updateTeam, hasTeam_updateTeam, hne, hne', hk,
         hc, h1, h2]);
      (have h2 : ¬m.FTHG < m.FTAG := by omega
       simp [pApply, getTeam_updateTeam, hasTeam_updateTeam, hne, hne', hk,
         hc, h2])]

theorem pApply_away (ps : List (String × PStanding)) (m : MatchRow)
    (hne : m.HomeTeam ≠ m.AwayTeam) (hk : hasTeam ps m.AwayTeam = true) :
    getTeam (pApply ps m) m.AwayTeam PStanding.init =
      { Points := (getTeam ps m.AwayTeam PStanding.init).Points +
          (if m.FTHG < m.FTAG then 3 else if m.FTAG < m.FTHG then 0 else 1),
        GF := (getTeam ps m.AwayTeam PStanding.init).GF + m.FTAG,
        GA := (getTeam ps m.AwayTeam PStanding.init).GA + m.FTHG,
        GD := (getTeam ps m.AwayTeam PStanding.init).GF + m.FTAG -
          ((getTeam ps m.AwayTeam PStanding.init).GA + m.FTHG) } := by
  have hne' : m.AwayTeam ≠ m.HomeTeam := hne.symm
  rcases lt_trichotomy m.FTHG m.FTAG with hc | hc | hc <;>
    [ (have h1 : ¬m.FTAG < m.FTHG := by omega
       simp [pApply, getTeam_updateTeam, hasTeam_updateTeam, hne, hne', hk,
         hc, h1]);
      (have h1 : ¬m.FTAG < m.FTHG := by omega
       have h2 : ¬m.FTHG < m.FTAG := by omega
       simp [pApply, getTeam_updateTeam, hasTeam_updateTeam, hne, hne', hk,
         hc, h1, h2]);
      (have h2 : ¬m.FTHG < m.FTAG := by omega
       simp [pApply, getTeam_updateTeam, hasTeam_updateTeam, hne, hne', hk,
         hc, h2])]

theorem pApply_other (ps : List (String × PStanding)) (m : MatchRow)
    (t : String) (h1 : t ≠ m.HomeTeam) (h2 : t ≠ m.AwayTeam) :
    getTeam (pApply ps m) t PStanding.init = getTeam ps t PStanding.init := by
  rcases lt_trichotomy m.FTHG m.FTAG with hc | hc | hc <;>
    [ (have hx1 : ¬m.FTAG < m.FTHG := by omega
       simp [pApply, getTeam_updateTeam, hasTeam_updateTeam, h1, h2, hc, hx1]);
      (have hx1 : ¬m.FTAG < m.FTHG := by omega
       have hx2 : ¬m.FTHG < m.FTAG := by omega
       simp [pApply, getTeam_updateTeam, hasTeam_updateTeam, h1, h2, hc,
         hx1, hx2]);
      (have hx2 : ¬m.FTHG < m.FTAG := by omega
       simp [pApply, getTeam_updateTeam, hasTeam_updateTeam, h1, h2, hc, hx2])]

theorem points_le_updateTeam (s : List (String × PStanding)) (t t' : String)
    (g : PStanding → PStanding)
    (hg : ∀ st : PStanding, st.Points ≤ (g st).Points) (d : PStanding) :
    (getTeam s t' d).Points ≤ (getTeam (updateTeam s t g) t' d).Points := by
  rw [getTeam_updateTeam]
  split
  · rename_i h
    rw [h.1]
    exact hg _
  · exact le_refl _

theorem pApply_points_mono (ps : List (String × PStanding)) (m : MatchRow)
    (t : String) :
    (getTeam ps t PStanding.init).Points ≤
      (getTeam (pApply ps m) t PStanding.init).Points := by
  have hadd3 : ∀ st : PStanding, st.Points ≤
      ({ st with Points := st.Points + 3 } : PStanding).Points := by
    intro st; dsimp; omega
  have hadd1 : ∀ st : PStanding, st.Points ≤
      ({ st with Points := st.Points + 1 } : PStanding).Points := by
    intro st; dsimp; omega
  have hgfh : ∀ st : PStanding, st.Points ≤
      ({ st with GF := st.GF + m.FTHG, GA := st.GA + m.FTAG,
                 GD := st.GF + m.FTHG - (st.GA + m.FTAG) } : PStanding).Points := by
    intro st; dsimp; omega
  have hgfa : ∀ st : PStanding, st.Points ≤
      ({ st with GF := st.GF + m.FTAG, GA := st.GA + m.FTHG,
                 GD := st.GF + m.FTAG - (st.GA + m.FTHG) } : PStanding).Points := by
    intro st; dsimp; omega
  rcases lt_trichotomy m.FTHG m.FTAG with hc | hc | hc
  · have h1 : ¬m.FTAG < m.FTHG := by omega
    simp only [pApply, gt_iff_lt, if_neg h1, if_pos hc]
    exact le_trans (points_le_updateTeam _ _ _ _ hadd3 _)
      (le_trans (points_le_updateTeam _ _ _ _ hgfh _)
        (points_le_updateTeam _ _ _ _ hgfa _))
  · have h1 : ¬m.FTAG < m.FTHG := by omega
    have h2 : ¬m.FTHG < m.FTAG := by omega
    simp only [pApply, gt_iff_lt, if_neg h1, if_neg h2]
    exact le_trans (points_le_updateTeam _ _ _ _ hadd1 _)
      (le_trans (points_le_updateTeam _ _ _ _ hadd1 _)
        (le_trans (points_le_updateTeam _ _ _ _ hgfh _)
          (points_le_updateTeam _ _ _ _ hgfa _)))
  · simp only [pApply, gt_iff_lt, if_pos hc]
    exact le_trans (points_le_updateTeam _ _ _ _ hadd3 _)
      (le_trans (points_le_updateTeam _ _ _ _ hgfh _)
        (points_le_updateTeam _ _ _ _ hgfa _))

/-! ## Snapshot (ranked table) laws -/

theorem map_rank_addRanks (l : List (String × PStanding)) (i : Nat) :
    (addRanks i l).map (fun r => r.Rank) = List.range' i l.length := by
  induction l generalizing i with
  | nil => simp [addRanks]
  | cons p rest ih => simp [addRanks, List.range'_succ, ih]

theorem length_addRanks (l : List (String × PStanding)) (i : Nat) :
    (addRanks i l).length = l.length := by
  induction l generalizing i with
  | nil => rfl
  | cons p rest ih => simp [addRanks, ih]

theorem map_team_addRanks (l : List (String × PStanding)) (i : Nat) :
    (addRanks i l).map (fun r => r.Team) = l.map (fun p => p.1) := by
  induction l generalizing i with
  | nil => rfl
  | cons p rest ih => simp [addRanks, ih]

theorem mem_addRanks : ∀ (l : List (String × PStanding)) (i : Nat) (r : PRow),
    r ∈ addRanks i l → ∃ p, p ∈ l ∧ r.Points = p.2.Points ∧ r.GF = p.2.GF ∧
      r.GA = p.2.GA ∧ r.GD = p.2.GD ∧ r.Team = p.1 := by
  intro l
  induction l with
  | nil => intro i r h; cases h
  | cons p rest ih =>
    intro i r h
    rcases List.mem_cons.mp h with he | hm
    · subst he
      exact ⟨p, List.mem_cons_self _ _, rfl, rfl, rfl, rfl, rfl⟩
    · obtain ⟨q, hq, h1, h2, h3, h4, h5⟩ := ih _ _ hm
      exact ⟨q, List.mem_cons_of_mem _ hq, h1, h2, h3, h4, h5⟩

theorem pairwise_addRanks : ∀ (l : List (String × PStanding)) (i : Nat),
    l.Pairwise pKeyGE → (addRanks i l).Pairwise prowKeyGE := by
  intro l
  induction l with
  | nil => intro i _; exact List.Pairwise.nil
  | cons p rest ih =>
    intro i h
    rcases List.pairwise_cons.mp h with ⟨hrel, hrest⟩
    refine List.Pairwise.cons ?_ (ih _ hrest)
    intro r' hr'
    obtain ⟨q, hq, h1, h2, h3, h4, h5⟩ := mem_addRanks _ _ _ hr'
    have hpq := hrel q hq
    unfold pKeyGE at hpq
    unfold prowKeyGE
    rw [h1, h4, h2]
    exact hpq

theorem find?_addRanks : ∀ (l : List (String × PStanding)) (i : Nat)
    (t : String) (v : PStanding), (l.map (fun p => p.1)).Nodup → (t, v) ∈ l →
    ∃ r, (addRanks i l).find? (fun r => decide (r.Team = t)) = some r ∧
      r.Points = v.Points ∧ r.GF = v.GF ∧ r.GA = v.GA ∧ r.GD = v.GD ∧
      r.Team = t := by
  intro l
  induction l with
  | nil => intro i t v _ hm; cases hm
  | cons p rest ih =>
    intro i t v hnd hm
    rw [List.map_cons, List.nodup_cons] at hnd
    by_cases hp : p.1 = t
    · have hv : v = p.2 := by
        rcases List.mem_cons.mp hm with he | hr
        · rw [← he]
        · exact absurd (by rw [hp]; exact List.mem_map.mpr ⟨(t, v), hr, rfl⟩)
            hnd.1
      refine ⟨⟨p.2.Points, p.2.GF, p.2.GA, p.2.GD, p.1, i⟩, ?_, by rw [hv],
        by rw [hv], by rw [hv], by rw [hv], hp⟩
      simp [addRanks, List.find?_cons, hp]
    · have hr : (t, v) ∈ rest := by
        rcases List.mem_cons.mp hm with he | hr
        · rw [← he] at hp
          exact absurd rfl hp
        · exact hr
      obtain ⟨r, hfind, h1, h2, h3, h4, h5⟩ := ih (i + 1) t v hnd.2 hr
      refine ⟨r, ?_, h1, h2, h3, h4, h5⟩
      simp [addRanks, List.find?_cons, hp, hfind]

theorem map_rank_snapshotTable (s : List (String × PStanding)) :
    (snapshotTable s).map (fun r => r.Rank) = List.range' 1 s.length := by
  unfold snapshotTable
  rw [map_rank_addRanks, List.length_insertionSort]

theorem length_snapshotTable (s : List (String × PStanding)) :
    (snapshotTable s).length = s.length := by
  unfold snapshotTable
  rw [length_addRanks, List.length_insertionSort]

theorem map_team_snapshotTable_perm (s : List (String × PStanding)) :
    ((snapshotTable s).map (fun r => r.Team)).Perm (s.map (fun p => p.1)) := by
  unfold snapshotTable
  rw [map_team_addRanks]
  exact (List.perm_insertionSort pKeyGE s).map _

theorem pairwise_snapshotTable (s : List (String × PStanding)) :
    (snapshotTable s).Pairwise prowKeyGE := by
  have h := List.sorted_insertionSort pKeyGE s
  exact pairwise_addRanks _ _ h

theorem snapshotTable_find? (s : List (String × PStanding)) (t : String)
    (v : PStanding) (hnd : (s.map (fun p => p.1)).Nodup) (hm : (t, v) ∈ s) :
    ∃ r, (snapshotTable s).find? (fun r => decide (r.Team = t)) = some r ∧
      r.Points = v.Points ∧ r.GF = v.GF ∧ r.GA = v.GA ∧ r.GD = v.GD ∧
      r.Team = t := by
  unfold snapshotTable
  have hperm := List.perm_insertionSort pKeyGE s
  have hnd' : ((List.insertionSort pKeyGE s).map (fun p => p.1)).Nodup :=
    ((hperm.map _).nodup_iff).mpr hnd
  exact find?_addRanks _ 1 t v hnd' (hperm.mem_iff.mpr hm)

/-! ## `emitFor` and the progression loop -/

theorem emitFor_none (table : List PRow) (prog : List ProgEntry) (t : String)
    (d : Nat) (h : table.find? (fun r => decide (r.Team = t)) = none) :
    emitFor table prog t d = prog := by
  unfold emitFor
  rw [h]

theorem emitFor_some (table : List PRow) (prog : List ProgEntry) (t : String)
    (d : Nat) (row : PRow)
    (h : table.find? (fun r => decide (r.Team = t)) = some row) :
    emitFor table prog t d =
      prog ++ [⟨t, (prog.filter fun e => decide (e.Team = t)).length + 1,
               row.Points, row.GF, row.GA, row.GD, row.Rank, d⟩] := by
  unfold emitFor
  rw [h]

theorem teamEntries_append (prog1 prog2 : List ProgEntry) (t : String) :
    teamEntries (prog1 ++ prog2) t = teamEntries prog1 t ++ teamEntries prog2 t := by
  unfold teamEntries
  exact List.filter_append _ _

theorem emitFor_mdInv (table : List PRow) (prog : List ProgEntry) (t : String)
    (d : Nat) (h : mdInv prog) : mdInv (emitFor table prog t d) := by
  cases hf : table.find? (fun r => decide (r.Team = t)) with
  | none => rw [emitFor_none _ _ _ _ hf]; exact h
  | some row =>
    rw [emitFor_some _ _ _ _ _ hf]
    intro t'
    rw [teamEntries_append]
    by_cases ht : t = t'
    · subst ht
      have he : teamEntries [(⟨t, (prog.filter fun e => decide (e.Team = t)).length + 1,
          row.Points, row.GF, row.GA, row.GD, row.Rank, d⟩ : ProgEntry)] t =
          [⟨t, (prog.filter fun e => decide (e.Team = t)).length + 1,
           row.Points, row.GF, row.GA, row.GD, row.Rank, d⟩] := by
        simp [teamEntries]
      rw [he, List.map_append, h t]
      simp only [teamEntries, List.map_cons, List.map_nil, List.length_append,
        List.length_cons, List.length_nil, Nat.zero_add, List.range'_1_concat]
      simp [Nat.add_comm]
    · have he : teamEntries [(⟨t, (prog.filter fun e => decide (e.Team = t)).length + 1,
          row.Points, row.GF, row.GA, row.GD, row.Rank, d⟩ : ProgEntry)] t' = [] := by
        simp [teamEntries, ht]
      rw [he, List.append_nil]
      exact h t'

theorem progStep_mdInv (st : List (String × PStanding) × List ProgEntry)
    (m : MatchRow) (h : mdInv st.2) : mdInv (progStep st m).2 :=
  emitFor_mdInv _ _ _ _ (emitFor_mdInv _ _ _ _ h)

theorem foldl_progStep_mdInv (ms : List MatchRow) :
    ∀ st, mdInv st.2 → mdInv (ms.foldl progStep st).2 := by
  induction ms with
  | nil => intro st h; exact h
  | cons m rest ih =>
    intro st h
    rw [List.foldl_cons]
    exact ih _ (progStep_mdInv st m h)

theorem mdInv_progOut (data : List MatchRow) (league season : String) :
    mdInv (progOut data league season) := by
  unfold progOut league_progression
  by_cases hdf : (filterLeagueSeason data league season).isEmpty
  · rw [if_pos hdf]
    intro t
    simp [teamEntries, Except.toOption]
  · rw [if_neg hdf]
    simp only [Except.toOption, Option.getD]
    refine foldl_progStep_mdInv _ _ ?_
    intro t
    simp [teamEntries]

/-! ## Points monotonicity along the progression -/

theorem chain'_append_last_mono {l : List Int} {a b : Int}
    (h : List.Chain' (· ≤ ·) (l ++ [a])) (hab : a ≤ b) :
    List.Chain' (· ≤ ·) (l ++ [b]) := by
  rw [List.chain'_append] at h ⊢
  obtain ⟨h1, h2, h3⟩ := h
  refine ⟨h1, List.chain'_singleton _, ?_⟩
  intro x hx y hy
  have hxa := h3 x hx a (by simp)
  have hyb : b = y := by simpa using hy
  exact hyb ▸ le_trans hxa hab

theorem chain'_append_last_dup {l : List Int} {a : Int}
    (h : List.Chain' (· ≤ ·) (l ++ [a])) :
    List.Chain' (· ≤ ·) (l ++ [a, a]) := by
  rw [List.chain'_append] at h ⊢
  obtain ⟨h1, h2, h3⟩ := h
  refine ⟨h1, ?_, ?_⟩
  · rw [List.chain'_cons]
    exact ⟨le_refl _, List.chain'_singleton _⟩
  · intro x hx y hy
    have hya : a = y := by simpa using hy
    exact hya ▸ h3 x hx a (by simp)

theorem ptsInv_mono (st st' : List (String × PStanding)) (prog : List ProgEntry)
    (h : ptsInv st prog)
    (hmono : ∀ t, (getTeam st t PStanding.init).Points ≤
      (getTeam st' t PStanding.init).Points) : ptsInv st' prog := by
  intro t
  exact chain'_append_last_mono (h t) (hmono t)

theorem snapshotTable_find?_points (s : List (String × PStanding)) (t : String)
    (row : PRow) (hnd : (s.map (fun p => p.1)).Nodup)
    (hf : (snapshotTable s).find? (fun r => decide (r.Team = t)) = some row) :
    row.Points = (getTeam s t PStanding.init).Points := by
  have hmem := List.mem_of_find?_eq_some hf
  have hpred := List.find?_some hf
  have hteam : row.Team = t := of_decide_eq_true hpred
  unfold snapshotTable at hmem
  obtain ⟨p, hp, h1, _, _, _, h5⟩ := mem_addRanks _ _ _ hmem
  have hps : p ∈ s := (List.perm_insertionSort pKeyGE s).mem_iff.mp hp
  have hpt : p.1 = t := by rw [← h5, hteam]
  have hget : getTeam s t PStanding.init = p.2 := by
    refine getTeam_eq_of_mem s t p.2 PStanding.init hnd ?_
    rw [← hpt]
    exact hps
  rw [h1, hget]

theorem emitFor_ptsInv (s : List (String × PStanding)) (prog : List ProgEntry)
    (t0 : String) (d : Nat) (hnd : (s.map (fun p => p.1)).Nodup)
    (h : ptsInv s prog) : ptsInv s (emitFor (snapshotTable s) prog t0 d) := by
  cases hf : (snapshotTable s).find? (fun r => decide (r.Team = t0)) with
  | none => rw [emitFor_none _ _ _ _ hf]; exact h
  | some row =>
    rw [emitFor_some _ _ _ _ _ hf]
    have hrp : row.Points = (getTeam s t0 PStanding.init).Points :=
      snapshotTable_find?_points s t0 row hnd hf
    intro t'
    rw [teamEntries_append]
    by_cases ht : t0 = t'
    · subst ht
      have he : teamEntries [(⟨t0, (prog.filter fun e => decide (e.Team = t0)).length + 1,
          row.Points, row.GF, row.GA, row.GD, row.Rank, d⟩ : ProgEntry)] t0 =
          [⟨t0, (prog.filter fun e => decide (e.Team = t0)).length + 1,
           row.Points, row.GF, row.GA, row.GD, row.Rank, d⟩] := by
        simp [teamEntries]
      rw [he, List.map_append]
      have hgoal := chain'_append_last_dup (h t0)
      rw [hrp]
      simpa using hgoal
    · have he : teamEntries [(⟨t0, (prog.filter fun e => decide (e.Team = t0)).length + 1,
          row.Points, row.GF, row.GA, row.GD, row.Rank, d⟩ : ProgEntry)] t' = [] := by
        simp [teamEntries, ht]
      rw [he, List.append_nil]
      exact h t'

theorem progStep_ptsInv (st : List (String × PStanding) × List ProgEntry)
    (m : MatchRow) (hnd : (st.1.map (fun p => p.1)).Nodup)
    (h : ptsInv st.1 st.2) :
    ((progStep st m).1.map (fun p => p.1)).Nodup ∧
      ptsInv (progStep st m).1 (progStep st m).2 := by
  have hnd' : ((pApply st.1 m).map (fun p => p.1)).Nodup := by
    rw [keys_pApply]
    exact hnd
  have hpts' : ptsInv (pApply st.1 m) st.2 :=
    ptsInv_mono _ _ _ h (fun t => pApply_points_mono _ _ _)
  have h1 := emitFor_ptsInv _ _ m.HomeTeam m.Date hnd' hpts'
  have h2 := emitFor_ptsInv _ _ m.AwayTeam m.Date hnd' h1
  exact ⟨hnd', h2⟩

theorem foldl_progStep_ptsInv (ms : List MatchRow) :
    ∀ st, (st.1.map (fun p => (p : String × PStanding).1)).Nodup →
      ptsInv st.1 st.2 →
      ptsInv (ms.foldl progStep st).1 (ms.foldl progStep st).2 := by
  induction ms with
  | nil => intro st _ h; exact h
  | cons m rest ih =>
    intro st hnd h
    rw [List.foldl_cons]
    obtain ⟨hnd', h'⟩ := progStep_ptsInv st m hnd h
    exact ih _ hnd' h'

theorem keys_initStandings (teams : List String) :
    (initStandings teams).map (fun p => p.1) = teams := by
  unfold initStandings
  rw [List.map_map]
  exact List.map_id teams

theorem ptsChain_progOut (data : List MatchRow) (league season : String)
    (t : String) :
    List.Chain' (· ≤ ·) ((teamEntries (progOut data league season) t).map
      (fun e => e.Points)) := by
  unfold progOut league_progression
  by_cases hdf : (filterLeagueSeason data league season).isEmpty
  · rw [if_pos hdf]
    simp [teamEntries, Except.toOption]
  · rw [if_neg hdf]
    simp only [Except.toOption, Option.getD]
    have hbase : ptsInv (initStandings (allTeams
        (List.insertionSort dateLE (filterLeagueSeason data league season)))) [] := by
      intro t'
      simp [teamEntries]
    have hnd : ((initStandings (allTeams
        (List.insertionSort dateLE (filterLeagueSeason data league season)))).map
        (fun p => p.1)).Nodup := by
      rw [keys_initStandings]
      exact nodup_firstDedup _
    have hfin := foldl_progStep_ptsInv
      (List.insertionSort dateLE (filterLeagueSeason data league season))
      (initStandings (allTeams
        (List.insertionSort dateLE (filterLeagueSeason data league season))), [])
      hnd hbase
    have := hfin t
    rw [List.chain'_append] at this
    exact this.1

/-! ## The record invariant of the `league_table` fold -/

theorem applyMatch_record_inv (s : List (String × Standing)) (m : MatchRow)
    (h : ∀ t, (getTeam s t Standing.init).Played =
      (getTeam s t Standing.init).Wins + (getTeam s t Standing.init).Draws +
      (getTeam s t Standing.init).Losses) :
    ∀ t, (getTeam (applyMatch s m) t Standing.init).Played =
      (getTeam (applyMatch s m) t Standing.init).Wins +
      (getTeam (applyMatch s m) t Standing.init).Draws +
      (getTeam (applyMatch s m) t Standing.init).Losses := by
  intro t
  by_cases hsame : m.HomeTeam = m.AwayTeam
  · by_cases hta : t = m.AwayTeam
    · subst hta
      rw [applyMatch_self s m hsame]
      have := h m.AwayTeam
      dsimp
      split_ifs <;> omega
    · have hth : t ≠ m.HomeTeam := by rw [hsame]; exact hta
      rw [applyMatch_other s m t hth hta]
      exact h t
  · by_cases hth : t = m.HomeTeam
    · subst hth
      rw [applyMatch_home s m hsame]
      have := h m.HomeTeam
      dsimp
      split_ifs <;> omega
    · by_cases hta : t = m.AwayTeam
      · subst hta
        rw [applyMatch_away s m hsame]
        have := h m.AwayTeam
        dsimp
        split_ifs <;> omega
      · rw [applyMatch_other s m t hth hta]
        exact h t

theorem accumulate_record_inv (ms : List MatchRow) :
    ∀ s, (∀ t, (getTeam s t Standing.init).Played =
        (getTeam s t Standing.init).Wins + (getTeam s t Standing.init).Draws +
        (getTeam s t Standing.init).Losses) →
      ∀ t, (getTeam (ms.foldl applyMatch s) t Standing.init).Played =
        (getTeam (ms.foldl applyMatch s) t Standing.init).Wins +
        (getTeam (ms.foldl applyMatch s) t Standing.init).Draws +
        (getTeam (ms.foldl applyMatch s) t Standing.init).Losses := by
  induction ms with
  | nil => intro s h; exact h
  | cons m rest ih =>
    intro s h
    rw [List.foldl_cons]
    exact ih _ (applyMatch_record_inv s m h)

theorem keys_accumulate_nodup (ms : List MatchRow) :
    ∀ s, ((s.map (fun p => (p : String × Standing).1)).Nodup) →
      ((ms.foldl applyMatch s).map (fun p => p.1)).Nodup := by
  induction ms with
  | nil => intro s h; exact h
  | cons m rest ih =>
    intro s h
    rw [List.foldl_cons]
    exact ih _ (keys_applyMatch_nodup s m h)

theorem tableOut_mem (data : List MatchRow) (league season : String)
    (r : TableRow) (h : r ∈ tableOut data league season) :
    ∃ p, p ∈ (filterLeagueSeason data league season).foldl applyMatch [] ∧
      r = toTableRow p := by
  unfold tableOut league_table at h
  by_cases hdf : (filterLeagueSeason data league season).isEmpty
  · rw [if_pos hdf] at h
    simp [Except.toOption] at h
  · rw [if_neg hdf] at h
    simp only [Except.toOption, Option.getD] at h
    have hm := (List.perm_insertionSort tableKeyGE _).mem_iff.mp h
    obtain ⟨p, hp, he⟩ := List.mem_map.mp hm
    exact ⟨p, hp, he.symm⟩

/-! ## Only the two participants of a match are emitted -/

theorem mem_emitFor (table : List PRow) (prog : List ProgEntry) (t0 : String)
    (d : Nat) (e : ProgEntry) (h : e ∈ emitFor table prog t0 d) :
    e ∈ prog ∨ (e.Team = t0 ∧ e.Date = d) := by
  cases hf : table.find? (fun r => decide (r.Team = t0)) with
  | none =>
    rw [emitFor_none _ _ _ _ hf] at h
    exact Or.inl h
  | some row =>
    rw [emitFor_some _ _ _ _ _ hf] at h
    rcases List.mem_append.mp h with h1 | h1
    · exact Or.inl h1
    · have he := List.mem_singleton.mp h1
      subst he
      exact Or.inr ⟨rfl, rfl⟩

theorem mem_progStep (st : List (String × PStanding) × List ProgEntry)
    (m : MatchRow) (e : ProgEntry) (h : e ∈ (progStep st m).2) :
    e ∈ st.2 ∨ ((e.Team = m.HomeTeam ∨ e.Team = m.AwayTeam) ∧
      e.Date = m.Date) := by
  rcases mem_emitFor _ _ _ _ _ h with h1 | h1
  · rcases mem_emitFor _ _ _ _ _ h1 with h2 | h2
    · exact Or.inl h2
    · exact Or.inr ⟨Or.inl h2.1, h2.2⟩
  · exact Or.inr ⟨Or.inr h1.1, h1.2⟩

theorem mem_foldl_progStep : ∀ (ms : List MatchRow)
    (st : List (String × PStanding) × List ProgEntry) (e : ProgEntry),
    e ∈ (ms.foldl progStep st).2 → e ∈ st.2 ∨ ∃ m, m ∈ ms ∧
      (e.Team = m.HomeTeam ∨ e.Team = m.AwayTeam) ∧ e.Date = m.Date := by
  intro ms
  induction ms with
  | nil => intro st e h; exact Or.inl h
  | cons m rest ih =>
    intro st e h
    rw [List.foldl_cons] at h
    rcases ih _ _ h with h1 | ⟨m', hm', hp⟩
    · rcases mem_progStep _ _ _ h1 with h2 | h2
      · exact Or.inl h2
      · exact Or.inr ⟨m, List.mem_cons_self _ _, h2⟩
    · exact Or.inr ⟨m', List.mem_cons_of_mem _ hm', hp⟩

theorem progOut_mem_match (data : List MatchRow) (league season : String)
    (e : ProgEntry) (h : e ∈ progOut data league season) :
    ∃ m, m ∈ filterLeagueSeason data league season ∧
      (e.Team = m.HomeTeam ∨ e.Team = m.AwayTeam) ∧ e.Date = m.Date := by
  unfold progOut league_progression at h
  by_cases hdf : (filterLeagueSeason data league season).isEmpty
  · rw [if_pos hdf] at h
    simp [Except.toOption] at h
  · rw [if_neg hdf] at h
    simp only [Except.toOption, Option.getD] at h
    rcases mem_foldl_progStep _ _ _ h with h1 | ⟨m, hm, hp⟩
    · cases h1
    · exact ⟨m, (List.perm_insertionSort dateLE _).mem_iff.mp hm, hp⟩

/-! ## The shape of one progression step -/

theorem progStep_emits (st : List (String × PStanding) × List ProgEntry)
    (m : MatchRow) (hnd : (st.1.map (fun p => p.1)).Nodup)
    (hh : hasTeam st.1 m.HomeTeam = true)
    (ha : hasTeam st.1 m.AwayTeam = true)
    (hne : m.HomeTeam ≠ m.AwayTeam) :
    ∃ rowh rowa : PRow,
      (snapshotTable (pApply st.1 m)).find?
        (fun r => decide (r.Team = m.HomeTeam)) = some rowh ∧
      (snapshotTable (pApply st.1 m)).find?
        (fun r => decide (r.Team = m.AwayTeam)) = some rowa ∧
      rowh.Points = (getTeam (pApply st.1 m) m.HomeTeam PStanding.init).Points ∧
      rowh.GF = (getTeam (pApply st.1 m) m.HomeTeam PStanding.init).GF ∧
      rowh.GA = (getTeam (pApply st.1 m) m.HomeTeam PStanding.init).GA ∧
      rowh.GD = (getTeam (pApply st.1 m) m.HomeTeam PStanding.init).GD ∧
      rowa.Points = (getTeam (pApply st.1 m) m.AwayTeam PStanding.init).Points ∧
      rowa.GF = (getTeam (pApply st.1 m) m.AwayTeam PStanding.init).GF ∧
      rowa.GA = (getTeam (pApply st.1 m) m.AwayTeam PStanding.init).GA ∧
      rowa.GD = (getTeam (pApply st.1 m) m.AwayTeam PStanding.init).GD ∧
      rowh.Team = m.HomeTeam ∧
      rowa.Team = m.AwayTeam ∧
      (progStep st m).2 = st.2 ++
        [⟨m.HomeTeam, (teamEntries st.2 m.HomeTeam).length + 1, rowh.Points,
          rowh.GF, rowh.GA, rowh.GD, rowh.Rank, m.Date⟩,
         ⟨m.AwayTeam, (teamEntries st.2 m.AwayTeam).length + 1, rowa.Points,
          rowa.GF, rowa.GA, rowa.GD, rowa.Rank, m.Date⟩] := by
  have hnd' : ((pApply st.1 m).map (fun p => p.1)).Nodup := by
    rw [keys_pApply]; exact hnd
  have hkh : hasTeam (pApply st.1 m) m.HomeTeam = true := by
    rw [hasTeam_pApply]; exact hh
  have hka : hasTeam (pApply st.1 m) m.AwayTeam = true := by
    rw [hasTeam_pApply]; exact ha
  have hmh := mem_of_hasTeam (pApply st.1 m) m.HomeTeam PStanding.init hkh
  have hma := mem_of_hasTeam (pApply st.1 m) m.AwayTeam PStanding.init hka
  obtain ⟨rowh, hfh, hp1, hp2, hp3, hp4, hth⟩ :=
    snapshotTable_find? (pApply st.1 m) m.HomeTeam _ hnd' hmh
  obtain ⟨rowa, hfa, ha1, ha2, ha3, ha4, hta⟩ :=
    snapshotTable_find? (pApply st.1 m) m.AwayTeam _ hnd' hma
  refine ⟨rowh, rowa, hfh, hfa, hp1, hp2, hp3, hp4, ha1, ha2, ha3, ha4,
    hth, hta, ?_⟩
  show emitFor (snapshotTable (pApply st.1 m))
      (emitFor (snapshotTable (pApply st.1 m)) st.2 m.HomeTeam m.Date)
      m.AwayTeam m.Date = _
  rw [emitFor_some _ _ _ _ _ hfh, emitFor_some _ _ _ _ _ hfa]
  rw [List.filter_append, List.append_assoc]
  have hone : List.filter (fun e => decide (e.Team = m.AwayTeam))
      [(⟨m.HomeTeam, (List.filter (fun e => decide (e.Team = m.HomeTeam)) st.2).length + 1,
        rowh.Points, rowh.GF, rowh.GA, rowh.GD, rowh.Rank, m.Date⟩ : ProgEntry)] = [] := by
    simp [hne]
  rw [hone, List.append_nil]
  rfl

/-! ## Claim theorems -/

/-- Claim C1: in both accumulators, a home win adds 3 points and a win to the
home team and a loss to the away team; an away win symmetrically; a draw adds
1 point and a draw to each team — so each match awards 3 points in total when
decisive and 2 when drawn.  (The progression accumulator tracks points only.) -/
theorem claim_C1_outcome_rule (s : List (String × Standing))
    (ps : List (String × PStanding)) (m : MatchRow)
    (hne : m.HomeTeam ≠ m.AwayTeam)
    (hh : hasTeam ps m.HomeTeam = true)
    (ha : hasTeam ps m.AwayTeam = true) :
    (getTeam (applyMatch s m) m.HomeTeam Standing.init).Points =
      (getTeam s m.HomeTeam Standing.init).Points +
        (if m.FTAG < m.FTHG then 3 else if m.FTHG < m.FTAG then 0 else 1) ∧
    (getTeam (applyMatch s m) m.HomeTeam Standing.init).Wins =
      (getTeam s m.HomeTeam Standing.init).Wins +
        (if m.FTAG < m.FTHG then 1 else 0) ∧
    (getTeam (applyMatch s m) m.HomeTeam Standing.init).Draws =
      (getTeam s m.HomeTeam Standing.init).Draws +
        (if m.FTHG = m.FTAG then 1 else 0) ∧
    (getTeam (applyMatch s m) m.HomeTeam Standing.init).Losses =
      (getTeam s m.HomeTeam Standing.init).Losses +
        (if m.FTHG < m.FTAG then 1 else 0) ∧
    (getTeam (applyMatch s m) m.AwayTeam Standing.init).Points =
      (getTeam s m.AwayTeam Standing.init).Points +
        (if m.FTHG < m.FTAG then 3 else if m.FTAG < m.FTHG then 0 else 1) ∧
    (getTeam (applyMatch s m) m.AwayTeam Standing.init).Wins =
      (getTeam s m.AwayTeam Standing.init).Wins +
        (if m.FTHG < m.FTAG then 1 else 0) ∧
    (getTeam (applyMatch s m) m.AwayTeam Standing.init).Draws =
      (getTeam s m.AwayTeam Standing.init).Draws +
        (if m.FTHG = m.FTAG then 1 else 0) ∧
    (getTeam (applyMatch s m) m.AwayTeam Standing.init).Losses =
      (getTeam s m.AwayTeam Standing.init).Losses +
        (if m.FTAG < m.FTHG then 1 else 0) ∧
    (getTeam (applyMatch s m) m.HomeTeam Standing.init).Points +
      (getTeam (applyMatch s m) m.AwayTeam Standing.init).Points =
      (getTeam s m.HomeTeam Standing.init).Points +
        (getTeam s m.AwayTeam Standing.init).Points +
        (if m.FTHG = m.FTAG then 2 else 3) ∧
    (getTeam (pApply ps m) m.HomeTeam PStanding.init).Points =
      (getTeam ps m.HomeTeam PStanding.init).Points +
        (if m.FTAG < m.FTHG then 3 else if m.FTHG < m.FTAG then 0 else 1) ∧
    (getTeam (pApply ps m) m.AwayTeam PStanding.init).Points =
      (getTeam ps m.AwayTeam PStanding.init).Points +
        (if m.FTHG < m.FTAG then 3 else if m.FTAG < m.FTHG then 0 else 1) ∧
    (getTeam (pApply ps m) m.HomeTeam PStanding.init).Points +
      (getTeam (pApply ps m) m.AwayTeam PStanding.init).Points =
      (getTeam ps m.HomeTeam PStanding.init).Points +
        (getTeam ps m.AwayTeam PStanding.init).Points +
        (if m.FTHG = m.FTAG then 2 else 3) := by
  rw [applyMatch_home s m hne, applyMatch_away s m hne,
    pApply_home ps m hne hh, pApply_away ps m hne ha]
  dsimp
  refine ⟨rfl, rfl, rfl, rfl, rfl, rfl, rfl, rfl, ?_, rfl, rfl, ?_⟩ <;>
    (split_ifs <;> omega)

/-- Witness for C1 at a concrete home win (A beats B 2–0 from empty
standings). -/
theorem claim_C1_outcome_rule_witness :
    (getTeam (applyMatch [] ⟨"epl", "2021", "A", "B", 2, 0, 1⟩) "A"
      Standing.init).Points =
      (getTeam ([] : List (String × Standing)) "A" Standing.init).Points + 3 ∧
    (getTeam (pApply (initStandings ["A", "B"]) ⟨"epl", "2021", "A", "B", 2, 0, 1⟩)
      "A" PStanding.init).Points =
      (getTeam (initStandings ["A", "B"]) "A" PStanding.init).Points + 3 := by
  have h := claim_C1_outcome_rule [] (initStandings ["A", "B"])
    ⟨"epl", "2021", "A", "B", 2, 0, 1⟩ (by decide) (by decide) (by decide)
  refine ⟨?_, ?_⟩
  · have h1 := h.1
    simpa using h1
  · have h2 := h.2.2.2.2.2.2.2.2.2.1
    simpa using h2

/-- Claim C2: the final `league_table` rows and every `league_progression`
snapshot are pairwise ordered by the (Points, GD, GF)-descending key: no
earlier row has a strictly smaller key tuple than a later row. -/
theorem claim_C2_sort_order (data : List MatchRow) (league season : String) :
    (tableOut data league season).Pairwise tableKeyGE ∧
    ∀ s : List (String × PStanding), (snapshotTable s).Pairwise prowKeyGE := by
  constructor
  · unfold tableOut league_table
    by_cases hdf : (filterLeagueSeason data league season).isEmpty
    · rw [if_pos hdf]
      simp [Except.toOption]
    · rw [if_neg hdf]
      simp only [Except.toOption, Option.getD]
      exact List.sorted_insertionSort tableKeyGE _
  · exact pairwise_snapshotTable

/-- Claim C3: every ranked snapshot over `N` teams assigns exactly the rank
sequence `1, 2, …, N` — contiguous, duplicate-free, one rank per team — even
when sort keys tie. -/
theorem claim_C3_ranks (s : List (String × PStanding)) :
    (snapshotTable s).map (fun r => r.Rank) = List.range' 1 s.length ∧
    ((snapshotTable s).map (fun r => r.Rank)).Nodup ∧
    (snapshotTable s).length = s.length := by
  refine ⟨map_rank_snapshotTable s, ?_, length_snapshotTable s⟩
  rw [map_rank_snapshotTable]
  exact List.nodup_range' 1 s.length

/-- Claim C4 counterexample: on `exDataABC`, team B is known after day 1, yet
the snapshot taken after the day-2 match A–C yields entries for A and C only —
B, although in the ranked snapshot, gets no `ProgressionEntry`, so the output
has 4 rows rather than one row per known team per match. -/
theorem claim_C4_counterexample :
    ((progOut exDataABC "epl" "2021").filter fun e => decide (e.Date = 2)).map
      (fun e => e.Team) = ["A", "C"] ∧
    "B" ∈ allTeams (filterLeagueSeason exDataABC "epl" "2021") ∧
    ((progOut exDataABC "epl" "2021").filter fun e =>
      decide (e.Team = "B")).length = 1 ∧
    (progOut exDataABC "epl" "2021").length = 4 := by
  decide

/-- Claim C4 amended: after each match the ranked snapshot is computed over
all teams of the filtered dataset (all zero-initialised upfront), but exactly
two entries are appended — one for the home team and one for the away team,
each carrying exactly the points, goals and rank of its row in that snapshot
(the `table.loc[table['Team'] == team].iloc[0]` lookup); teams not playing in
the match get no entry, and every emitted entry names a participant of some
filtered match. -/
theorem claim_C4_amended :
    (∀ (st : List (String × PStanding) × List ProgEntry) (m : MatchRow),
      (st.1.map (fun p => p.1)).Nodup → hasTeam st.1 m.HomeTeam = true →
      hasTeam st.1 m.AwayTeam = true → m.HomeTeam ≠ m.AwayTeam →
      (progStep st m).2.length = st.2.length + 2 ∧
      (progStep st m).2.take st.2.length = st.2 ∧
      ((progStep st m).2.drop st.2.length).map (fun e => e.Team) =
        [m.HomeTeam, m.AwayTeam] ∧
      (∀ e, e ∈ (progStep st m).2.drop st.2.length →
        e.Points = (getTeam (pApply st.1 m) e.Team PStanding.init).Points ∧
        e.GF = (getTeam (pApply st.1 m) e.Team PStanding.init).GF ∧
        e.GA = (getTeam (pApply st.1 m) e.Team PStanding.init).GA ∧
        e.GD = (getTeam (pApply st.1 m) e.Team PStanding.init).GD ∧
        e.Date = m.Date ∧
        (snapshotTable (pApply st.1 m)).find?
          (fun r => decide (r.Team = e.Team)) =
          some ⟨e.Points, e.GF, e.GA, e.GD, e.Team, e.Rank⟩) ∧
      ((snapshotTable (pApply st.1 m)).map (fun r => r.Team)).Perm
        (st.1.map (fun p => p.1))) ∧
    (∀ (data : List MatchRow) (league season : String) (e : ProgEntry),
      e ∈ progOut data league season →
      (filterLeagueSeason data league season).any (fun m =>
        (decide (e.Team = m.HomeTeam) || decide (e.Team = m.AwayTeam)) &&
          decide (e.Date = m.Date)) = true) := by
  constructor
  · intro st m hnd hh ha hne
    obtain ⟨rowh, rowa, hfh, hfa, hp1, hp2, hp3, hp4, ha1, ha2, ha3, ha4,
      hth, hta, hsh⟩ := progStep_emits st m hnd hh ha hne
    rw [hsh]
    refine ⟨by simp, List.take_left _ _, ?_, ?_, ?_⟩
    · rw [List.drop_left]
      rfl
    · intro e he
      rw [List.drop_left] at he
      rcases List.mem_cons.mp he with he1 | he1
      · subst he1
        dsimp only
        refine ⟨hp1, hp2, hp3, hp4, rfl, ?_⟩
        have hrw : (⟨rowh.Points, rowh.GF, rowh.GA, rowh.GD, m.HomeTeam,
            rowh.Rank⟩ : PRow) = rowh := by
          rw [← hth]
        rw [hrw]
        exact hfh
      · have he2 := List.mem_singleton.mp he1
        subst he2
        dsimp only
        refine ⟨ha1, ha2, ha3, ha4, rfl, ?_⟩
        have hrw : (⟨rowa.Points, rowa.GF, rowa.GA, rowa.GD, m.AwayTeam,
            rowa.Rank⟩ : PRow) = rowa := by
          rw [← hta]
        rw [hrw]
        exact hfa
    · have hperm := map_team_snapshotTable_perm (pApply st.1 m)
      rw [keys_pApply] at hperm
      exact hperm
  · intro data league season e he
    obtain ⟨m, hm, hp, hd⟩ := progOut_mem_match data league season e he
    rw [List.any_eq_true]
    refine ⟨m, hm, ?_⟩
    rcases hp with hp | hp <;> simp [hp, hd]

/-- Witness for C4 (amended) at the concrete first match of `exDataABC`. -/
theorem claim_C4_amended_witness :
    (progStep (initStandings ["A", "B", "C"], [])
        ⟨"epl", "2021", "A", "B", 1, 0, 1⟩).2.length = 0 + 2 ∧
    ((progStep (initStandings ["A", "B", "C"], [])
        ⟨"epl", "2021", "A", "B", 1, 0, 1⟩).2.drop 0).map (fun e => e.Team) =
      ["A", "B"] ∧
    ((progOut exDataABC "epl" "2021").filter fun e => decide (e.Team = "C")).any
      (fun e => decide (e.Date = 2)) = true := by
  have h := claim_C4_amended
  have h1 := h.1 (initStandings ["A", "B", "C"], [])
    ⟨"epl", "2021", "A", "B", 1, 0, 1⟩ (by decide) (by decide) (by decide)
    (by decide)
  exact ⟨h1.1, h1.2.2.1, by decide⟩

/-- Claim C5: each team's `Matchday` values in its emission-ordered progression
entries are exactly `1, 2, …, k` — contiguous from 1, no gaps, strictly
increasing. -/
theorem claim_C5_matchday_sequence (data : List MatchRow)
    (league season t : String) :
    (teamEntries (progOut data league season) t).map (fun e => e.Matchday) =
      List.range' 1 (teamEntries (progOut data league season) t).length :=
  mdInv_progOut data league season t

/-- Claim C6: after accumulating any match sequence, every team's aggregate has
`Played = Wins + Draws + Losses`, and every emitted table row additionally has
`GD = GF - GA`. -/
theorem claim_C6_aggregate_invariants :
    (∀ (ms : List MatchRow) (t : String),
      (getTeam (ms.foldl applyMatch []) t Standing.init).Played =
        (getTeam (ms.foldl applyMatch []) t Standing.init).Wins +
        (getTeam (ms.foldl applyMatch []) t Standing.init).Draws +
        (getTeam (ms.foldl applyMatch []) t Standing.init).Losses) ∧
    (∀ (data : List MatchRow) (league season : String) (r : TableRow),
      r ∈ tableOut data league season →
      r.Played = r.Wins + r.Draws + r.Losses ∧ r.GD = r.GF - r.GA) := by
  have hbase : ∀ t, (getTeam ([] : List (String × Standing)) t
      Standing.init).Played =
      (getTeam [] t Standing.init).Wins + (getTeam [] t Standing.init).Draws +
      (getTeam [] t Standing.init).Losses := by
    intro t
    rfl
  constructor
  · intro ms t
    exact accumulate_record_inv ms [] hbase t
  · intro data league season r hr
    obtain ⟨p, hp, he⟩ := tableOut_mem data league season r hr
    have hnd : (((filterLeagueSeason data league season).foldl applyMatch
        []).map (fun q => q.1)).Nodup :=
      keys_accumulate_nodup _ [] (by simp)
    have hget : getTeam ((filterLeagueSeason data league season).foldl
        applyMatch []) p.1 Standing.init = p.2 :=
      getTeam_eq_of_mem _ _ _ _ hnd hp
    have hinv := accumulate_record_inv (filterLeagueSeason data league season)
      [] hbase p.1
    rw [hget] at hinv
    subst he
    exact ⟨hinv, rfl⟩

/-- Witness for C6 on the two-match table of `exDataABC`. -/
theorem claim_C6_aggregate_invariants_witness :
    (⟨"A", 4, 2, 1, 1, 0, 1, 0, 1⟩ : TableRow) ∈ tableOut exDataABC "epl" "2021" ∧
    ((⟨"A", 4, 2, 1, 1, 0, 1, 0, 1⟩ : TableRow).Played =
      (⟨"A", 4, 2, 1, 1, 0, 1, 0, 1⟩ : TableRow).Wins +
      (⟨"A", 4, 2, 1, 1, 0, 1, 0, 1⟩ : TableRow).Draws +
      (⟨"A", 4, 2, 1, 1, 0, 1, 0, 1⟩ : TableRow).Losses ∧
     (⟨"A", 4, 2, 1, 1, 0, 1, 0, 1⟩ : TableRow).GD =
      (⟨"A", 4, 2, 1, 1, 0, 1, 0, 1⟩ : TableRow).GF -
      (⟨"A", 4, 2, 1, 1, 0, 1, 0, 1⟩ : TableRow).GA) := by
  refine ⟨by decide, ?_⟩
  exact claim_C6_aggregate_invariants.2 exDataABC "epl" "2021" _ (by decide)

/-- Claim C7: when the league/season filter is empty, both operations fail with
an error carrying the sorted duplicate-free list of all league identifiers and
all season identifiers of the dataset, and return no table rows. -/
theorem claim_C7_no_matches_error (data : List MatchRow)
    (league season : String)
    (h : (filterLeagueSeason data league season).isEmpty = true) :
    errValue (league_table data league season) = some (availableChoices data) ∧
    errValue (league_progression data league season) =
      some (availableChoices data) ∧
    List.Sorted (· ≤ ·) (availableChoices data).1 ∧
    List.Sorted (· ≤ ·) (availableChoices data).2 ∧
    (availableChoices data).1.Nodup ∧
    (availableChoices data).2.Nodup ∧
    (∀ x, x ∈ (availableChoices data).1 ↔ x ∈ data.map (fun m => m.league)) ∧
    (∀ x, x ∈ (availableChoices data).2 ↔ x ∈ data.map (fun m => m.year)) := by
  refine ⟨?_, ?_, ?_, ?_, ?_, ?_, ?_, ?_⟩
  · unfold league_table
    rw [if_pos h]
    rfl
  · unfold league_progression
    rw [if_pos h]
    rfl
  · exact List.sorted_insertionSort _ _
  · exact List.sorted_insertionSort _ _
  · exact (List.perm_insertionSort _ _).nodup_iff.mpr (nodup_firstDedup _)
  · exact (List.perm_insertionSort _ _).nodup_iff.mpr (nodup_firstDedup _)
  · intro x
    rw [show (availableChoices data).1 =
      List.insertionSort (· ≤ ·) (firstDedup (data.map (fun m => m.league)))
      from rfl]
    rw [(List.perm_insertionSort _ _).mem_iff, mem_firstDedup]
  · intro x
    rw [show (availableChoices data).2 =
      List.insertionSort (· ≤ ·) (firstDedup (data.map (fun m => m.year)))
      from rfl]
    rw [(List.perm_insertionSort _ _).mem_iff, mem_firstDedup]

/-- Witness for C7: querying `exDataABC` for an unknown league and season. -/
theorem claim_C7_no_matches_error_witness :
    (filterLeagueSeason exDataABC "x" "y").isEmpty = true ∧
    errValue (league_table exDataABC "x" "y") =
      some (availableChoices exDataABC) ∧
    ("epl" ∈ (availableChoices exDataABC).1 ↔
      "epl" ∈ exDataABC.map (fun m => m.league)) := by
  refine ⟨by decide,
    (claim_C7_no_matches_error exDataABC "x" "y" (by decide)).1, ?_⟩
  exact (claim_C7_no_matches_error exDataABC "x" "y"
    (by decide)).2.2.2.2.2.2.1 "epl"

/-- Claim C8 counterexample: the accumulators perform no per-match validation:
a record with negative home goals and an empty home-team identifier is
accumulated without error by both operations, which return ordinary results. -/
theorem claim_C8_counterexample :
    (league_table exDataInvalid "l" "s").toOption =
      some [⟨"B", 3, 1, 1, 0, 0, 2, -1, 3⟩, ⟨"", 0, 1, 0, 0, 1, -1, 2, -3⟩] ∧
    (league_progression exDataInvalid "l" "s").toOption =
      some [⟨"", 1, 0, -1, 2, -3, 2, 5⟩, ⟨"B", 1, 3, 2, -1, 3, 1, 5⟩] ∧
    errValue (league_table exDataInvalid "l" "s") = none := by
  decide

/-- Claim C8 amended: no validation of goals or team identifiers happens
anywhere: the only failure of either operation is the empty league/season
filter — for every input, the result is an error exactly when the filter is
empty, regardless of negative goals or empty team names. -/
theorem claim_C8_amended (data : List MatchRow) (league season : String) :
    (errValue (league_table data league season) = none ↔
      (filterLeagueSeason data league season).isEmpty = false) ∧
    (errValue (league_progression data league season) = none ↔
      (filterLeagueSeason data league season).isEmpty = false) := by
  by_cases hdf : (filterLeagueSeason data league season).isEmpty
  · constructor
    · unfold league_table
      rw [if_pos hdf]
      simp [errValue, hdf]
    · unfold league_progression
      rw [if_pos hdf]
      simp [errValue, hdf]
  · have hdf' : (filterLeagueSeason data league season).isEmpty = false := by
      simpa using hdf
    constructor
    · unfold league_table
      rw [if_neg hdf]
      simp [errValue, hdf']
    · unfold league_progression
      rw [if_neg hdf]
      simp [errValue, hdf']

/-- Claim C10: each team's emitted `Points` values are non-decreasing in
emission (matchday) order: points are only ever added. -/
theorem claim_C10_points_monotone (data : List MatchRow)
    (league season t : String) :
    List.Chain' (· ≤ ·) ((teamEntries (progOut data league season) t).map
      (fun e => e.Points)) :=
  ptsChain_progOut data league season t
